import Mathlib

/-!
The TSDB client of bce-tsdb-go (`client.go`).

A shallow embedding of package `tsdb`: client construction, the two request
primitives `get` and `post`, the operation surface and presigned-URL
generation.  Calls that leave the package (JSON encoding, the HTTP transport,
the credential signer, URL parsing) are fields of an environment `Env`; every
call an operation makes to the transport, the body decoder or the signer is
recorded, in order, in the trace the operation returns.
-/

set_option autoImplicit false
set_option maxRecDepth 100000

namespace Tsdb

/-! ## Go values -/

/-- A Go `error` value; the nil error is `none : Option Error`. -/
structure Error where
  msg : String
deriving DecidableEq, Repr

/-- A Go `map[string]string`: association list with pairwise distinct keys. -/
abbrev StrMap := List (String × String)

/-- Map assignment `m[k] = v`: overwrite the entry of `k`, or add one. -/
def mapSet : StrMap → String → String → StrMap
  | [], k, v => [(k, v)]
  | (k0, v0) :: rest, k, v =>
    if k0 = k then (k, v) :: rest else (k0, v0) :: mapSet rest k v

/-- Map lookup `v, ok := m[k]`. -/
def mapGet : StrMap → String → Option String
  | [], _ => none
  | (k0, v0) :: rest, k => if k0 = k then some v0 else mapGet rest k

/-! ## `fmt.Sprintf`, restricted to the `%s` verb (the only one `client.go` uses) -/

/-- Tail of `Sprintf` once the format is consumed: surplus operands are reported. -/
def sprintfExtra : List String → List Char
  | [] => []
  | a :: rest =>
    "%!(EXTRA ".data ++ ("string=" ++ a).data
      ++ (rest.map (fun x => (", string=" ++ x).data)).flatten ++ [')']

/-- Scan the format left to right, replacing each `%s` by the next operand. -/
def sprintfAux : List Char → List String → List Char
  | [], args => sprintfExtra args
  | '%' :: 's' :: rest, a :: args => a.data ++ sprintfAux rest args
  | '%' :: 's' :: rest, [] => "%!s(MISSING)".data ++ sprintfAux rest []
  | c :: rest, args => c :: sprintfAux rest args

/-- The function `fmt.Sprintf(format, args...)` for string operands. -/
def Sprintf (format : String) (args : List String) : String :=
  String.mk (sprintfAux format.data args)

/-! ## `net/url`: escaping and `Values.Encode` -/

/-- Escaping modes of `net/url` used here. -/
inductive Encoding where
  | encodePathSegment
  | encodeQueryComponent
deriving DecidableEq, Repr

/-- The function `net/url.shouldEscape` on one byte for the two modes above. -/
def shouldEscape (c : Nat) (mode : Encoding) : Bool :=
  if (97 ≤ c ∧ c ≤ 122) ∨ (65 ≤ c ∧ c ≤ 90) ∨ (48 ≤ c ∧ c ≤ 57) then false
  else if c = 45 ∨ c = 95 ∨ c = 46 ∨ c = 126 then false
  else if c = 36 ∨ c = 38 ∨ c = 43 ∨ c = 44 ∨ c = 47 ∨ c = 58 ∨ c = 59 ∨ c = 61
      ∨ c = 63 ∨ c = 64 then
    match mode with
    | .encodePathSegment => c = 47 ∨ c = 59 ∨ c = 44 ∨ c = 63
    | .encodeQueryComponent => true
  else true

/-- The table `upperhex` of `net/url`. -/
def upperhex (n : Nat) : Char :=
  "0123456789ABCDEF".data.getD n '0'

/-- One byte of `net/url.escape`. -/
def escapeByte (mode : Encoding) (c : Nat) : List Char :=
  if c = 32 ∧ mode = .encodeQueryComponent then ['+']
  else if shouldEscape c mode then ['%', upperhex (c / 16), upperhex (c % 16)]
  else [Char.ofNat c]

/-- The bytes of a string (its UTF-8 encoding), as numbers. -/
def bytesOf (s : String) : List Nat :=
  (s.data.flatMap String.utf8EncodeChar).map UInt8.toNat

/-- The function `net/url.escape`. -/
def escape (s : String) (mode : Encoding) : String :=
  String.mk ((bytesOf s).flatMap (escapeByte mode))

/-- The function `net/url.QueryEscape`. -/
def QueryEscape (s : String) : String := escape s .encodeQueryComponent

/-- The function `net/url.PathEscape`. -/
def PathEscape (s : String) : String := escape s .encodePathSegment

/-- The function `net/url.Values`, a `map[string][]string`. -/
abbrev Values := List (String × List String)

/-- Go string order `a < b`: lexicographic on bytes. -/
def bytesLt : List Nat → List Nat → Bool
  | _, [] => false
  | [], _ :: _ => true
  | a :: as, b :: bs => if a < b then true else if b < a then false else bytesLt as bs

/-- Insert a key into a sorted key list. -/
def insertKey (k : String) : List String → List String
  | [] => [k]
  | x :: rest =>
    if bytesLt (bytesOf k) (bytesOf x) then k :: x :: rest else x :: insertKey k rest

/-- The call `slices.Sort(keys)`. -/
def sortKeys : List String → List String
  | [] => []
  | k :: rest => insertKey k (sortKeys rest)

/-- The value list `v[k]` of a key (nil when absent). -/
def valuesOf : Values → String → List String
  | [], _ => []
  | (k0, vs) :: rest, k => if k0 = k then vs else valuesOf rest k

/-- The method `Values.Encode`: keys sorted, `key=value` pairs escaped and joined by `&`. -/
def Values.Encode (v : Values) : String :=
  (sortKeys (v.map Prod.fst)).foldl
    (fun buf k =>
      (valuesOf v k).foldl
        (fun buf x =>
          (if buf.length > 0 then buf.push '&' else buf)
            ++ QueryEscape k ++ "=" ++ QueryEscape x)
        buf)
    ""

/-! ## The SDK's request and response objects (`bce-sdk-go`, packages `http`, `bce`, `auth`) -/

/-- Method names of the SDK's `http` package. -/
def GET : String := "GET"

/-- The HTTP method POST. -/
def POST : String := "POST"

/-- The HTTP method PUT. -/
def PUT : String := "PUT"

/-- Header name `http.AUTHORIZATION`. -/
def AUTHORIZATION : String := "Authorization"

/-- Header name `http.CONTENT_TYPE`. -/
def CONTENT_TYPE : String := "Content-Type"

/-- A request body `bce.Body`: the bytes, their count and their MD5 digest. -/
structure Body where
  stream : String
  size : Nat
  contentMD5 : String
deriving DecidableEq, Repr

/-- The SDK request (`http.Request`, which `bce.BceRequest` embeds): the fields
    `client.go` writes or reads.  The zero value is the empty request. -/
structure Request where
  method : String := ""
  uri : String := ""
  headers : StrMap := []
  params : StrMap := []
  body : Option Body := none
deriving DecidableEq, Repr

namespace Request

/-- The setter `SetMethod`. -/
def SetMethod (r : Request) (m : String) : Request := { r with method := m }

/-- The setter `SetUri`. -/
def SetUri (r : Request) (u : String) : Request := { r with uri := u }

/-- The setter `SetParam`: `r.params[key] = value`. -/
def SetParam (r : Request) (k v : String) : Request := { r with params := mapSet r.params k v }

/-- The setter `SetHeader`: `r.headers[key] = value`. -/
def SetHeader (r : Request) (k v : String) : Request :=
  { r with headers := mapSet r.headers k v }

/-- The setter `SetBody`. -/
def SetBody (r : Request) (b : Body) : Request := { r with body := some b }

/-- The getter `Param`: the value of a parameter, the empty string when it is not set. -/
def Param (r : Request) (k : String) : String := (mapGet r.params k).getD ""

/-- The getter `Header`: the value of a header, the empty string when it is not set. -/
def Header (r : Request) (k : String) : String := (mapGet r.headers k).getD ""

end Request

/-- The SDK response `bce.BceResponse` after a send: the failure signal `IsFail()`,
    the service error `ServiceError()` and the body that `ParseJsonBody` reads. -/
structure BceResponse where
  IsFail : Bool
  ServiceError : Error
  body : String
deriving DecidableEq, Repr

/-- Credentials `auth.BceCredentials`. -/
structure BceCredentials where
  AccessKeyId : String
  SecretAccessKey : String
deriving DecidableEq, Repr

/-- Signing options `auth.SignOptions`, the two fields `client.go` sets. -/
structure SignOptions where
  HeadersToSign : List String
  ExpireSeconds : Int
deriving DecidableEq, Repr

/-- The signer handed to `bce.NewBceClient`. -/
inductive Signer where
  | BceV1Signer
deriving DecidableEq, Repr

/-- A retry policy of the SDK, known here by name only. -/
structure RetryPolicy where
  name : String
deriving DecidableEq, Repr

/-- Client configuration `bce.BceClientConfiguration`. -/
structure BceClientConfiguration where
  Endpoint : String
  ProxyUrl : String := ""
  Region : String
  UserAgent : String
  Credentials : BceCredentials
  SignOption : SignOptions
  Retry : RetryPolicy
  ConnectionTimeoutInMillis : Int
deriving DecidableEq, Repr

/-- The SDK client `bce.BceClient`. -/
structure BceClient where
  Config : BceClientConfiguration
  Signer : Signer
deriving DecidableEq, Repr

/-- The constructor `bce.NewBceClient`. -/
def NewBceClient (conf : BceClientConfiguration) (sign : Signer) : BceClient :=
  { Config := conf, Signer := sign }

/-- A parsed URL `net/url.URL`; `client.go` reads its `Host`. -/
structure URL where
  Scheme : String
  Host : String
  Path : String
deriving DecidableEq, Repr

/-! ## Payload and result shapes (declared outside `client.go`) -/

/-- Modelled from the spec: the element types of the payloads and results
    (`Datapoint`, `Queries`, `Field`, `TagValues`, `QueryResult`, `RowResult`) are
    declared in a file that is not part of the sources read here.  The spec treats
    them as opaque JSON shapes, so they are parameters; `zeroRow` is the zero value
    `RowResult{}`. -/
structure Schema where
  Datapoint : Type
  Queries : Type
  Field : Type
  TagValues : Type
  QueryResult : Type
  RowResult : Type
  zeroRow : RowResult

/-- Modelled from the spec: the body of a write, `WriteDataPointArgs`, with the one
    field `client.go` sets; its declaration is not in the sources. -/
structure WriteDataPointArgs (T : Schema) where
  DataPoints : List T.Datapoint

/-- Modelled from the spec: the body of a query, `ListDatapointArgs`, with the two
    fields `client.go` sets; its declaration is not in the sources. -/
structure ListDatapointArgs (T : Schema) where
  Queries : T.Queries
  DisablePresampling : Bool := false

/-- Modelled from the spec: `ListMetricsResult`, an ordered sequence of metric
    names; its declaration is not in the sources. -/
structure ListMetricsResult where
  Metrics : List String := []
deriving DecidableEq, Repr

/-- Modelled from the spec: `ListFieldResult`, a mapping from field name to field
    metadata; its declaration is not in the sources. -/
structure ListFieldResult (T : Schema) where
  Fields : List (String × T.Field) := []

/-- Modelled from the spec: `ListTagsResult`, a mapping from tag name to tag
    values; its declaration is not in the sources. -/
structure ListTagsResult (T : Schema) where
  Tags : List (String × T.TagValues) := []

/-- Modelled from the spec: `ListDatapointResult`, a sequence of query results; its
    declaration is not in the sources. -/
structure ListDatapointResult (T : Schema) where
  Results : List T.QueryResult := []

/-! ## The collaborators outside the package -/

/-- A JSON decoder for one result shape: `json.Decoder.Decode` into a pointer to an
    `R`.  It gets the body and the object as it is, and returns the object as the
    decoder leaves it together with the decoder's error. -/
abbrev Decoder (R : Type) := String → R → R × Option Error

/-- Everything `client.go` calls outside its package.  Theorems quantify over it. -/
structure Env (T : Schema) where
  /-- The encoder `json.Marshal` on a `*WriteDataPointArgs`. -/
  marshalWrite : WriteDataPointArgs T → Except Error String
  /-- The encoder `json.Marshal` on a `*ListDatapointArgs`. -/
  marshalList : ListDatapointArgs T → Except Error String
  /-- The decoder `json.Decoder.Decode` into a `*ListMetricsResult`. -/
  decodeMetrics : Decoder ListMetricsResult
  /-- The decoder `json.Decoder.Decode` into a `*ListFieldResult`. -/
  decodeFields : Decoder (ListFieldResult T)
  /-- The decoder `json.Decoder.Decode` into a `*ListTagsResult`. -/
  decodeTags : Decoder (ListTagsResult T)
  /-- The decoder `json.Decoder.Decode` into a `*ListDatapointResult`. -/
  decodeDatapoints : Decoder (ListDatapointResult T)
  /-- The decoder `json.Decoder.Decode` into a `*RowResult`. -/
  decodeRow : Decoder T.RowResult
  /-- The constructor `auth.NewBceCredentials`. -/
  NewBceCredentials : String → String → Except Error BceCredentials
  /-- The parser `url.Parse`. -/
  urlParse : String → Except Error URL
  /-- The transport `BceClient.SendRequest`: the error it returns, or the response it filled in. -/
  SendRequest : Request → Except Error BceResponse
  /-- The authorization string `Signer.Sign` computes for a request. -/
  authString : Request → BceCredentials → SignOptions → String
  /-- The digest `util.CalculateContentMD5` of a byte buffer. -/
  contentMD5 : String → String
  /-- The constant `auth.DEFAULT_HEADERS_TO_SIGN`. -/
  DEFAULT_HEADERS_TO_SIGN : List String
  /-- The constant `auth.DEFAULT_EXPIRE_SECONDS`. -/
  DEFAULT_EXPIRE_SECONDS : Int
  /-- The constant `bce.DEFAULT_REGION`. -/
  DEFAULT_REGION : String
  /-- The constant `bce.DEFAULT_USER_AGENT`. -/
  DEFAULT_USER_AGENT : String
  /-- The constant `bce.DEFAULT_RETRY_POLICY`. -/
  DEFAULT_RETRY_POLICY : RetryPolicy
  /-- The constant `bce.DEFAULT_CONNECTION_TIMEOUT_IN_MILLIS`. -/
  DEFAULT_CONNECTION_TIMEOUT_IN_MILLIS : Int
  /-- The constant `bce.DEFAULT_CONTENT_TYPE`. -/
  DEFAULT_CONTENT_TYPE : String

/-- The constructor `bce.NewBodyFromBytes`: wraps an in-memory buffer with its length and MD5
    digest.  The digest is read from the buffer itself, which cannot fail, so the
    error result is always nil. -/
def NewBodyFromBytes {T : Schema} (env : Env T) (buf : String) : Except Error Body :=
  .ok { stream := buf, size := buf.utf8ByteSize, contentMD5 := env.contentMD5 buf }

/-- The method `BceV1Signer.Sign`: puts the authorization string into the request's
    `Authorization` header. -/
def Sign {T : Schema} (env : Env T) (req : Request) (cred : BceCredentials)
    (opt : SignOptions) : Request :=
  req.SetHeader AUTHORIZATION (env.authString req cred opt)

/-- One call that leaves the package, as recorded in an operation's trace. -/
inductive Call where
  /-- A call `SendRequest(req, res)` with the request as it was handed over. -/
  | send (req : Request)
  /-- A call `res.ParseJsonBody(result)` on a response. -/
  | parse (res : BceResponse)
  /-- A call `Signer.Sign(req, cred, opt)` with the request as it was handed over. -/
  | sign (req : Request) (cred : BceCredentials) (opt : SignOptions)
deriving DecidableEq, Repr

/-- The requests a trace hands to the transport, in order. -/
def sent : List Call → List Request
  | [] => []
  | .send req :: rest => req :: sent rest
  | _ :: rest => sent rest

/-- The responses whose body a trace parses, in order. -/
def parsed : List Call → List BceResponse
  | [] => []
  | .parse res :: rest => res :: parsed rest
  | _ :: rest => parsed rest

/-- The signer invocations of a trace, in order. -/
def signed : List Call → List (Request × BceCredentials × SignOptions)
  | [] => []
  | .sign req cred opt :: rest => (req, cred, opt) :: signed rest
  | _ :: rest => signed rest

/-- What a call returns: its first result, its error, and its trace. -/
structure Ret (α : Type) where
  val : α
  err : Option Error
  calls : List Call

/-! ## `client.go` -/

/-- The URI of the datapoint operations. -/
def URI_DATAPOINT : String := "/v1/datapoint"

/-- The URI template of the tag listing. -/
def URI_TAG : String := "/v1/metric/%s/tag"

/-- The URI template of the field listing. -/
def URI_FIELD : String := "/v1/metric/%s/field"

/-- The URI of the metric listing. -/
def URI_METRIC : String := "/v1/metric"

/-- The URI of the row query. -/
def URI_ROW_SQL : String := "/v1/row"

/-- The struct `Client`: the embedded SDK client, the host and the database. -/
structure Client where
  BceClient : BceClient
  host : String
  database : String
deriving DecidableEq, Repr

/-- The struct `Config`. -/
structure Config where
  Endpoint : String
  AK : String
  SK : String
  Database : String := ""
  ProxyUrl : String := ""
deriving DecidableEq, Repr

/-- The constructor `NewClientWithConfig`: credentials first, then the endpoint URL, then the
    client.  The Go pair `(*Client, error)` is a pair of options. -/
def NewClientWithConfig {T : Schema} (env : Env T) (c : Config) :
    Option Client × Option Error :=
  match env.NewBceCredentials c.AK c.SK with
  | .error err => (none, some err)
  | .ok credentials =>
    match env.urlParse c.Endpoint with
    | .error err => (none, some err)
    | .ok u =>
      let defaultSignOptions : SignOptions :=
        { HeadersToSign := env.DEFAULT_HEADERS_TO_SIGN
          ExpireSeconds := env.DEFAULT_EXPIRE_SECONDS }
      let defaultConf : BceClientConfiguration :=
        { Endpoint := c.Endpoint
          Region := env.DEFAULT_REGION
          UserAgent := env.DEFAULT_USER_AGENT
          Credentials := credentials
          SignOption := defaultSignOptions
          Retry := env.DEFAULT_RETRY_POLICY
          ConnectionTimeoutInMillis := env.DEFAULT_CONNECTION_TIMEOUT_IN_MILLIS }
      let defaultConf :=
        if c.ProxyUrl ≠ "" then { defaultConf with ProxyUrl := c.ProxyUrl } else defaultConf
      (some { BceClient := NewBceClient defaultConf .BceV1Signer
              host := u.Host
              database := c.Database }, none)

/-- The constructor `NewClient`. -/
def NewClient {T : Schema} (env : Env T) (ak sk endpoint : String) :
    Option Client × Option Error :=
  NewClientWithConfig env { Endpoint := endpoint, AK := ak, SK := sk }

/-- The constructor `NewClientWithDB`. -/
def NewClientWithDB {T : Schema} (env : Env T) (ak sk endpoint database : String) :
    Option Client × Option Error :=
  NewClientWithConfig env { Endpoint := endpoint, AK := ak, SK := sk, Database := database }

/-- The loop `for i, l := 0, len(params)/2; i < l; i++` of `get` and `post`: one
    `SetParam(params[i*2+0], params[i*2+1])` per index. -/
def setParams (req : Request) (params : List String) : Request :=
  (List.range (params.length / 2)).foldl
    (fun r i => r.SetParam (params.getD (i * 2 + 0) "") (params.getD (i * 2 + 1) ""))
    req

/-- The method `Client.get`.  `result` is the object behind the `interface{}`
    argument and `decode` the decoder of its type; the returned `val` is that
    object after the call. -/
def get {T : Schema} {R : Type} (env : Env T) (c : Client) (uri : String) (result : R)
    (decode : Decoder R) (params : List String) : Ret R :=
  let req : Request := {}
  let req := req.SetMethod GET
  let req := req.SetUri uri
  let req := if c.database ≠ "" then req.SetParam "database" c.database else req
  let req := setParams req params
  match env.SendRequest req with
  | .error err => { val := result, err := some err, calls := [.send req] }
  | .ok res =>
    if res.IsFail then
      { val := result, err := some res.ServiceError, calls := [.send req] }
    else
      let out := decode res.body result
      { val := out.1, err := out.2, calls := [.send req, .parse res] }

/-- The method `Client.post`.  `data` is the payload with its JSON encoder,
    `result` the optional result object (nil is `none`) with its decoder. -/
def post {T : Schema} {D R : Type} (env : Env T) (c : Client) (uri method : String)
    (data : D) (marshal : D → Except Error String) (result : Option R)
    (decode : Decoder R) (params : List String) : Ret (Option R) :=
  let req : Request := {}
  let req := req.SetMethod method
  let req := req.SetUri uri
  let req := req.SetHeader CONTENT_TYPE env.DEFAULT_CONTENT_TYPE
  let req := if c.database ≠ "" then req.SetParam "database" c.database else req
  let req := setParams req params
  match marshal data with
  | .error err => { val := result, err := some err, calls := [] }
  | .ok buf =>
    match NewBodyFromBytes env buf with
    | .error err => { val := result, err := some err, calls := [] }
    | .ok body =>
      let req := req.SetBody body
      match env.SendRequest req with
      | .error err => { val := result, err := some err, calls := [.send req] }
      | .ok res =>
        if res.IsFail then
          { val := result, err := some res.ServiceError, calls := [.send req] }
        else
          match result with
          | some r =>
            let out := decode res.body r
            { val := some out.1, err := out.2, calls := [.send req, .parse res] }
          | none => { val := none, err := none, calls := [.send req] }

/-- A decoder for a nil result target: never invoked. -/
def noDecoder : Decoder Unit := fun _ u => (u, none)

/-- The method `WriteDatapoint`: a POST with a nil result target. -/
def WriteDatapoint {T : Schema} (env : Env T) (c : Client) (data : List T.Datapoint) :
    Ret Unit :=
  let r := post env c URI_DATAPOINT POST
    ({ DataPoints := data } : WriteDataPointArgs T) env.marshalWrite none noDecoder []
  { val := (), err := r.err, calls := r.calls }

/-- The method `ListMetric`: `return list.Metrics, c.get(URI_METRIC, list)`.  The
    call is evaluated before the field of `list` is loaded (the order the gc
    toolchain gives a return statement whose operands are a field load and a call;
    the language itself leaves this order open). -/
def ListMetric {T : Schema} (env : Env T) (c : Client) : Ret (List String) :=
  let list : ListMetricsResult := {}
  let r := get env c URI_METRIC list env.decodeMetrics []
  { val := r.val.Metrics, err := r.err, calls := r.calls }

/-- The method `ListFieldByMetric`; operands evaluated as in `ListMetric`. -/
def ListFieldByMetric {T : Schema} (env : Env T) (c : Client) (metric : String) :
    Ret (List (String × T.Field)) :=
  let list : ListFieldResult T := {}
  let r := get env c (Sprintf URI_FIELD [metric]) list env.decodeFields []
  { val := r.val.Fields, err := r.err, calls := r.calls }

/-- The method `ListTagByMetric`; operands evaluated as in `ListMetric`. -/
def ListTagByMetric {T : Schema} (env : Env T) (c : Client) (metric : String) :
    Ret (List (String × T.TagValues)) :=
  let list : ListTagsResult T := {}
  let r := get env c (Sprintf URI_TAG [metric]) list env.decodeTags []
  { val := r.val.Tags, err := r.err, calls := r.calls }

/-- The method `ListDatapointByQuery`; operands evaluated as in `ListMetric`. -/
def ListDatapointByQuery {T : Schema} (env : Env T) (c : Client) (query : T.Queries)
    (disablePresampling : List Bool) : Ret (List T.QueryResult) :=
  let list : ListDatapointResult T := {}
  let r := post env c URI_DATAPOINT PUT
    ({ Queries := query
       DisablePresampling :=
         decide (disablePresampling.length > 0) && disablePresampling.getD 0 false } :
      ListDatapointArgs T)
    env.marshalList (some list) env.decodeDatapoints ["query", ""]
  { val := (r.val.getD list).Results, err := r.err, calls := r.calls }

/-- The method `ListRowBySql`: the result pointer is reset to nil on an error. -/
def ListRowBySql {T : Schema} (env : Env T) (c : Client) (statement : String) :
    Ret (Option T.RowResult) :=
  let list : T.RowResult := T.zeroRow
  let r := get env c URI_ROW_SQL list env.decodeRow ["sql", statement]
  let list : Option T.RowResult := if r.err ≠ none then none else some r.val
  { val := list, err := r.err, calls := r.calls }

/-- The method `GeneratePresignedUrl`; `endpoint` is the variadic override. -/
def GeneratePresignedUrl {T : Schema} (env : Env T) (c : Client) (query : T.Queries)
    (expireSeconds : Int) (endpoint : List String) : Ret String :=
  match env.marshalList ({ Queries := query } : ListDatapointArgs T) with
  | .error err => { val := "", err := some err, calls := [] }
  | .ok buf =>
    let req : Request := {}
    let req := req.SetParam "query" buf
    let req := req.SetHeader "Host" c.host
    let req := req.SetUri URI_DATAPOINT
    let req := req.SetMethod GET
    let opt : SignOptions :=
      { HeadersToSign := c.BceClient.Config.SignOption.HeadersToSign
        ExpireSeconds := expireSeconds }
    let signedReq := Sign env req c.BceClient.Config.Credentials opt
    let calls := [Call.sign req c.BceClient.Config.Credentials opt]
    let val : Values :=
      [("query", [signedReq.Param "query"]),
       ("authorization", [signedReq.Header AUTHORIZATION])]
    if endpoint.length > 0 then
      { val := Sprintf "%s%s?%s" [endpoint.getD 0 "", URI_DATAPOINT, Values.Encode val]
        err := none, calls := calls }
    else
      { val := Sprintf "%s%s?%s" [c.BceClient.Config.Endpoint, URI_DATAPOINT, Values.Encode val]
        err := none, calls := calls }

/-! ## A reference environment

A concrete choice of shapes and collaborators on which the operations can be
evaluated.  Each collaborator is a small table that agrees with the real one on
the inputs used below; the digest and the authorization string are stand-ins for
the MD5 and HMAC values. -/

/-- Shapes for the reference environment: a datapoint or a query is its JSON text,
    tag values are a list of strings, a row result is a list of rows. -/
@[reducible] def refSchema : Schema where
  Datapoint := String
  Queries := List String
  Field := String
  TagValues := List String
  QueryResult := String
  RowResult := List (List String)
  zeroRow := []

/-- The constructor `auth.NewBceCredentials`: an empty key is rejected. -/
def refCredentials (ak sk : String) : Except Error BceCredentials :=
  if ak = "" then .error ⟨"accessKeyId should not be empty"⟩
  else if sk = "" then .error ⟨"secretKey should not be empty"⟩
  else .ok { AccessKeyId := ak, SecretAccessKey := sk }

/-- The parser `url.Parse` on the endpoints of the examples: a string that starts with a
    colon has no scheme and is rejected; `http://host` has that host. -/
def refUrlParse (s : String) : Except Error URL :=
  if s.data.head? = some ':' then .error ⟨"parse \"" ++ s ++ "\": missing protocol scheme"⟩
  else if s = "http://tsdb.example.com" then
    .ok { Scheme := "http", Host := "tsdb.example.com", Path := "" }
  else .ok { Scheme := "", Host := "", Path := s }

/-- A canned service: the tag listing of metric `cpu` and the metric listing
    succeed, a write succeeds with an empty body, a datapoint query returns a body
    that is not JSON; the row query answers `select 1` with one row, answers
    `select 2` with a body that is not JSON, refuses `drop` and loses the connection
    on every other statement; every other request fails in the transport. -/
def refSend (req : Request) : Except Error BceResponse :=
  if req.uri = "/v1/metric/cpu/tag" then
    .ok { IsFail := false, ServiceError := ⟨""⟩
          body := "\x7b\"tags\": \x7b\"host\": [\"a\",\"b\"]\x7d\x7d" }
  else if req.uri = "/v1/metric" then
    .ok { IsFail := false, ServiceError := ⟨""⟩, body := "\x7b\"metrics\": [\"cpu\"]\x7d" }
  else if req.uri = "/v1/datapoint" ∧ req.method = "POST" then
    .ok { IsFail := false, ServiceError := ⟨""⟩, body := "" }
  else if req.uri = "/v1/datapoint" then
    .ok { IsFail := false, ServiceError := ⟨""⟩, body := "<html>" }
  else if req.uri = "/v1/row" ∧ req.Param "sql" = "select 1" then
    .ok { IsFail := false, ServiceError := ⟨""⟩, body := "\x7b\"rows\": [[\"1\"]]\x7d" }
  else if req.uri = "/v1/row" ∧ req.Param "sql" = "select 2" then
    .ok { IsFail := false, ServiceError := ⟨""⟩, body := "<html>" }
  else if req.uri = "/v1/row" ∧ req.Param "sql" = "drop" then
    .ok { IsFail := true, ServiceError := ⟨"[Code: AccessDenied]"⟩, body := "" }
  else .error ⟨"connection refused"⟩

/-- The reference environment. -/
def refEnv : Env refSchema where
  marshalWrite := fun a =>
    .ok ("\x7b\"datapoints\":[" ++ ",".intercalate a.DataPoints ++ "]\x7d")
  marshalList := fun a =>
    .ok ("\x7b\"queries\":[" ++ ",".intercalate a.Queries ++ "]"
      ++ (if a.DisablePresampling then ",\"disablePresampling\":true" else "") ++ "\x7d")
  decodeMetrics := fun body r =>
    if body = "\x7b\"metrics\": [\"cpu\"]\x7d" then ({ Metrics := ["cpu"] }, none)
    else (r, some ⟨"invalid character"⟩)
  decodeFields := fun _ r => (r, some ⟨"invalid character"⟩)
  decodeTags := fun body r =>
    if body = "\x7b\"tags\": \x7b\"host\": [\"a\",\"b\"]\x7d\x7d" then
      ({ Tags := [("host", ["a", "b"])] }, none)
    else (r, some ⟨"invalid character"⟩)
  decodeDatapoints := fun _ r => (r, some ⟨"invalid character"⟩)
  decodeRow := fun body r =>
    if body = "\x7b\"rows\": [[\"1\"]]\x7d" then ([["1"]], none)
    else (r, some ⟨"invalid character"⟩)
  NewBceCredentials := refCredentials
  urlParse := refUrlParse
  SendRequest := refSend
  authString := fun req cred opt =>
    "bce-auth-v1/" ++ cred.AccessKeyId ++ "/2024-01-01T00:00:00Z/"
      ++ toString opt.ExpireSeconds ++ "/host/" ++ toString (req.Param "query").length
  contentMD5 := fun _ => "1B2M2Y8AsgTpgAmY7PhCfg=="
  DEFAULT_HEADERS_TO_SIGN := ["host", "content-length", "content-type", "content-md5"]
  DEFAULT_EXPIRE_SECONDS := 1800
  DEFAULT_REGION := "bj"
  DEFAULT_USER_AGENT := "bce-sdk-go"
  DEFAULT_RETRY_POLICY := ⟨"backoff"⟩
  DEFAULT_CONNECTION_TIMEOUT_IN_MILLIS := 1200000
  DEFAULT_CONTENT_TYPE := "application/json;charset=utf-8"

/-- The client `NewClientWithDB` builds in the reference environment for the
    endpoint `http://tsdb.example.com`, keys `ak`, `sk` and the given database. -/
def refClient (database : String) : Client where
  BceClient :=
    { Config :=
        { Endpoint := "http://tsdb.example.com"
          Region := "bj"
          UserAgent := "bce-sdk-go"
          Credentials := { AccessKeyId := "ak", SecretAccessKey := "sk" }
          SignOption :=
            { HeadersToSign := ["host", "content-length", "content-type", "content-md5"]
              ExpireSeconds := 1800 }
          Retry := ⟨"backoff"⟩
          ConnectionTimeoutInMillis := 1200000 }
      Signer := .BceV1Signer }
  host := "tsdb.example.com"
  database := database

/-! ## Vocabulary of the statements -/

/-- The request `get` builds and hands to the transport. -/
def getRequest (c : Client) (uri : String) (params : List String) : Request :=
  setParams
    (if c.database ≠ "" then
      ((({} : Request).SetMethod GET).SetUri uri).SetParam "database" c.database
    else (({} : Request).SetMethod GET).SetUri uri)
    params

/-- The request `post` has built when it turns to the payload (no body yet). -/
def postRequest {T : Schema} (env : Env T) (c : Client) (uri method : String)
    (params : List String) : Request :=
  setParams
    (if c.database ≠ "" then
      (((({} : Request).SetMethod method).SetUri uri).SetHeader CONTENT_TYPE
        env.DEFAULT_CONTENT_TYPE).SetParam "database" c.database
    else
      ((({} : Request).SetMethod method).SetUri uri).SetHeader CONTENT_TYPE
        env.DEFAULT_CONTENT_TYPE)
    params

/-- The body `post` attaches for the marshalled bytes `buf`. -/
def bodyOf {T : Schema} (env : Env T) (buf : String) : Body :=
  { stream := buf, size := buf.utf8ByteSize, contentMD5 := env.contentMD5 buf }

/-- The unsent request `GeneratePresignedUrl` builds for the serialized query `j`. -/
def presignRequest (c : Client) (j : String) : Request :=
  (((({} : Request).SetParam "query" j).SetHeader "Host" c.host).SetUri URI_DATAPOINT).SetMethod
    GET

/-- The sign options `GeneratePresignedUrl` passes to the signer. -/
def presignOptions (c : Client) (expireSeconds : Int) : SignOptions :=
  { HeadersToSign := c.BceClient.Config.SignOption.HeadersToSign
    ExpireSeconds := expireSeconds }

/-- Split a character sequence at every occurrence of a separator. -/
def splitChars (sep : Char) : List Char → List (List Char)
  | [] => [[]]
  | ch :: rest =>
    if ch = sep then [] :: splitChars sep rest
    else
      match splitChars sep rest with
      | [] => [[ch]]
      | seg :: segs => (ch :: seg) :: segs

/-- The path segments of a URI: the pieces between its slashes. -/
def pathSegments (uri : String) : List String :=
  (splitChars '/' uri.data).map String.mk

/-- The keys of a query string: the text before the first `=` of every piece
    between ampersands. -/
def queryKeys (qs : String) : List String :=
  (splitChars '&' qs.data).map (fun kv => String.mk (kv.takeWhile (fun ch => ch ≠ '=')))

/-- A request carries the configured database: the parameter `database` is set to it
    when it is non-empty and is not set at all when it is empty. -/
def carriesDatabase (database : String) (req : Request) : Prop :=
  mapGet req.params "database" = if database = "" then none else some database

/-! ## Lemmas on maps, formatting and the request primitives -/

theorem mapGet_mapSet_self (m : StrMap) (k v : String) : mapGet (mapSet m k v) k = some v := by
  induction m with
  | nil => simp [mapSet, mapGet]
  | cons p rest ih =>
    obtain ⟨k0, v0⟩ := p
    by_cases h : k0 = k
    · simp [mapSet, mapGet, h]
    · simp [mapSet, mapGet, h, ih]

theorem mapGet_mapSet_ne (m : StrMap) (k v k1 : String) (h : k ≠ k1) :
    mapGet (mapSet m k v) k1 = mapGet m k1 := by
  induction m with
  | nil => simp [mapSet, mapGet, h]
  | cons p rest ih =>
    obtain ⟨k0, v0⟩ := p
    by_cases h0 : k0 = k
    · subst h0
      simp [mapSet, mapGet, h]
    · simp [mapSet, mapGet, h0, ih]

theorem setParams_nil (req : Request) : setParams req [] = req := by
  simp [setParams]

theorem setParams_pair (req : Request) (k v : String) :
    setParams req [k, v] = req.SetParam k v := by
  simp [setParams, List.range_succ]

theorem Sprintf_URI_TAG (m : String) : Sprintf URI_TAG [m] = "/v1/metric/" ++ m ++ "/tag" := by
  apply String.ext
  simp [Sprintf, URI_TAG, sprintfAux, sprintfExtra]

theorem Sprintf_URI_FIELD (m : String) :
    Sprintf URI_FIELD [m] = "/v1/metric/" ++ m ++ "/field" := by
  apply String.ext
  simp [Sprintf, URI_FIELD, sprintfAux, sprintfExtra]

theorem Sprintf_url (e u q : String) : Sprintf "%s%s?%s" [e, u, q] = e ++ u ++ "?" ++ q := by
  apply String.ext
  simp [Sprintf, sprintfAux, sprintfExtra]

theorem Encode_query_authorization (j a : String) :
    Values.Encode [("query", [j]), ("authorization", [a])]
      = "authorization=" ++ QueryEscape a ++ "&query=" ++ QueryEscape j := by
  have hs : sortKeys ["query", "authorization"] = ["authorization", "query"] := by decide
  have hq : QueryEscape "query" = "query" := by decide
  have ha : QueryEscape "authorization" = "authorization" := by decide
  simp only [Values.Encode, List.map, hs, List.foldl, valuesOf]
  simp only [hq, ha]
  have h0 : ¬ ("".length > 0) := by decide
  simp only [h0, if_false]
  have hl : ("" ++ "authorization" ++ "=" ++ QueryEscape a).length > 0 := by
    simp only [String.length_append]
    have : "authorization".length = 13 := by decide
    omega
  simp only [hl, if_true]
  apply String.ext
  simp [String.data_push]

theorem get_send_error {T : Schema} {R : Type} (env : Env T) (c : Client) (uri : String)
    (result : R) (decode : Decoder R) (params : List String) (e : Error)
    (h : env.SendRequest (getRequest c uri params) = .error e) :
    get env c uri result decode params
      = { val := result, err := some e, calls := [.send (getRequest c uri params)] } := by
  simp only [get]
  simp only [getRequest] at h
  rw [h]
  rfl

theorem get_service_fail {T : Schema} {R : Type} (env : Env T) (c : Client) (uri : String)
    (result : R) (decode : Decoder R) (params : List String) (res : BceResponse)
    (h : env.SendRequest (getRequest c uri params) = .ok res) (hf : res.IsFail = true) :
    get env c uri result decode params
      = { val := result, err := some res.ServiceError
          calls := [.send (getRequest c uri params)] } := by
  simp only [get]
  simp only [getRequest] at h
  rw [h]
  simp [hf, getRequest]

theorem get_success {T : Schema} {R : Type} (env : Env T) (c : Client) (uri : String)
    (result : R) (decode : Decoder R) (params : List String) (res : BceResponse)
    (h : env.SendRequest (getRequest c uri params) = .ok res) (hf : res.IsFail = false) :
    get env c uri result decode params
      = { val := (decode res.body result).1, err := (decode res.body result).2
          calls := [.send (getRequest c uri params), .parse res] } := by
  simp only [get]
  simp only [getRequest] at h
  rw [h]
  simp [hf, getRequest]

theorem get_sent {T : Schema} {R : Type} (env : Env T) (c : Client) (uri : String)
    (result : R) (decode : Decoder R) (params : List String) :
    sent (get env c uri result decode params).calls = [getRequest c uri params] := by
  cases h : env.SendRequest (getRequest c uri params) with
  | error e => rw [get_send_error env c uri result decode params e h]; rfl
  | ok res =>
    cases hf : res.IsFail with
    | true => rw [get_service_fail env c uri result decode params res h hf]; rfl
    | false => rw [get_success env c uri result decode params res h hf]; rfl

theorem setParams_method (req : Request) (params : List String) :
    (setParams req params).method = req.method ∧ (setParams req params).uri = req.uri
      ∧ (setParams req params).headers = req.headers
      ∧ (setParams req params).body = req.body := by
  unfold setParams
  generalize List.range (params.length / 2) = idx
  induction idx generalizing req with
  | nil => simp
  | cons i rest ih =>
    simp only [List.foldl_cons]
    have := ih (req.SetParam (params.getD (i * 2 + 0) "") (params.getD (i * 2 + 1) ""))
    simpa [Request.SetParam] using this

theorem getRequest_method (c : Client) (uri : String) (params : List String) :
    (getRequest c uri params).method = GET ∧ (getRequest c uri params).uri = uri := by
  unfold getRequest
  obtain ⟨h1, h2, -, -⟩ := setParams_method
    (if c.database ≠ "" then
      ((({} : Request).SetMethod GET).SetUri uri).SetParam "database" c.database
    else (({} : Request).SetMethod GET).SetUri uri) params
  rw [h1, h2]
  split <;> simp [Request.SetParam, Request.SetUri, Request.SetMethod]

theorem getRequest_database_nil (c : Client) (uri : String) :
    carriesDatabase c.database (getRequest c uri []) := by
  unfold carriesDatabase getRequest
  rw [setParams_nil]
  by_cases h : c.database = ""
  · simp [h, Request.SetUri, Request.SetMethod, mapGet]
  · simp [h, Request.SetUri, Request.SetMethod, Request.SetParam, mapGet, mapSet]

theorem getRequest_database_pair (c : Client) (uri k v : String) (hk : k ≠ "database") :
    carriesDatabase c.database (getRequest c uri [k, v]) := by
  unfold carriesDatabase getRequest
  rw [setParams_pair]
  simp only [Request.SetParam]
  rw [mapGet_mapSet_ne _ _ _ _ hk]
  by_cases h : c.database = ""
  · simp [h, Request.SetUri, Request.SetMethod, mapGet]
  · simp [h, Request.SetUri, Request.SetMethod, Request.SetParam, mapGet, mapSet]


theorem post_marshal_error {T : Schema} {D R : Type} (env : Env T) (c : Client)
    (uri method : String) (data : D) (marshal : D → Except Error String)
    (result : Option R) (decode : Decoder R) (params : List String) (e : Error)
    (h : marshal data = .error e) :
    post env c uri method data marshal result decode params
      = { val := result, err := some e, calls := [] } := by
  simp only [post]
  rw [h]

theorem post_send_error {T : Schema} {D R : Type} (env : Env T) (c : Client)
    (uri method : String) (data : D) (marshal : D → Except Error String)
    (result : Option R) (decode : Decoder R) (params : List String) (buf : String)
    (e : Error) (h : marshal data = .ok buf)
    (hs : env.SendRequest ((postRequest env c uri method params).SetBody (bodyOf env buf))
      = .error e) :
    post env c uri method data marshal result decode params
      = { val := result, err := some e
          calls := [.send ((postRequest env c uri method params).SetBody (bodyOf env buf))] } := by
  simp only [post, NewBodyFromBytes]
  simp only [postRequest, bodyOf] at hs
  rw [h]
  simp only []
  rw [hs]
  rfl

theorem post_service_fail {T : Schema} {D R : Type} (env : Env T) (c : Client)
    (uri method : String) (data : D) (marshal : D → Except Error String)
    (result : Option R) (decode : Decoder R) (params : List String) (buf : String)
    (res : BceResponse) (h : marshal data = .ok buf)
    (hs : env.SendRequest ((postRequest env c uri method params).SetBody (bodyOf env buf))
      = .ok res)
    (hf : res.IsFail = true) :
    post env c uri method data marshal result decode params
      = { val := result, err := some res.ServiceError
          calls := [.send ((postRequest env c uri method params).SetBody (bodyOf env buf))] } := by
  simp only [post, NewBodyFromBytes]
  simp only [postRequest, bodyOf] at hs
  rw [h]
  simp only []
  rw [hs]
  simp [hf, postRequest, bodyOf]

theorem post_success_some {T : Schema} {D R : Type} (env : Env T) (c : Client)
    (uri method : String) (data : D) (marshal : D → Except Error String)
    (r : R) (decode : Decoder R) (params : List String) (buf : String)
    (res : BceResponse) (h : marshal data = .ok buf)
    (hs : env.SendRequest ((postRequest env c uri method params).SetBody (bodyOf env buf))
      = .ok res)
    (hf : res.IsFail = false) :
    post env c uri method data marshal (some r) decode params
      = { val := some (decode res.body r).1, err := (decode res.body r).2
          calls := [.send ((postRequest env c uri method params).SetBody (bodyOf env buf)),
                    .parse res] } := by
  simp only [post, NewBodyFromBytes]
  simp only [postRequest, bodyOf] at hs
  rw [h]
  simp only []
  rw [hs]
  simp [hf, postRequest, bodyOf]

theorem post_success_none {T : Schema} {D R : Type} (env : Env T) (c : Client)
    (uri method : String) (data : D) (marshal : D → Except Error String)
    (decode : Decoder R) (params : List String) (buf : String)
    (res : BceResponse) (h : marshal data = .ok buf)
    (hs : env.SendRequest ((postRequest env c uri method params).SetBody (bodyOf env buf))
      = .ok res)
    (hf : res.IsFail = false) :
    post env c uri method data marshal (none : Option R) decode params
      = { val := none, err := none
          calls := [.send ((postRequest env c uri method params).SetBody (bodyOf env buf))] } := by
  simp only [post, NewBodyFromBytes]
  simp only [postRequest, bodyOf] at hs
  rw [h]
  simp only []
  rw [hs]
  simp [hf, postRequest, bodyOf]

theorem postRequest_fields {T : Schema} (env : Env T) (c : Client) (uri method : String)
    (params : List String) :
    (postRequest env c uri method params).method = method
      ∧ (postRequest env c uri method params).uri = uri := by
  unfold postRequest
  obtain ⟨h1, h2, -, -⟩ := setParams_method
    (if c.database ≠ "" then
      (((({} : Request).SetMethod method).SetUri uri).SetHeader CONTENT_TYPE
        env.DEFAULT_CONTENT_TYPE).SetParam "database" c.database
    else
      ((({} : Request).SetMethod method).SetUri uri).SetHeader CONTENT_TYPE
        env.DEFAULT_CONTENT_TYPE) params
  rw [h1, h2]
  split <;> simp [Request.SetParam, Request.SetUri, Request.SetMethod, Request.SetHeader]

theorem postRequest_database_nil {T : Schema} (env : Env T) (c : Client)
    (uri method : String) :
    carriesDatabase c.database (postRequest env c uri method []) := by
  unfold carriesDatabase postRequest
  rw [setParams_nil]
  by_cases h : c.database = ""
  · simp [h, Request.SetUri, Request.SetMethod, Request.SetHeader, mapGet]
  · simp [h, Request.SetUri, Request.SetMethod, Request.SetHeader, Request.SetParam, mapGet,
      mapSet]

theorem postRequest_database_pair {T : Schema} (env : Env T) (c : Client)
    (uri method k v : String) (hk : k ≠ "database") :
    carriesDatabase c.database (postRequest env c uri method [k, v]) := by
  unfold carriesDatabase postRequest
  rw [setParams_pair]
  simp only [Request.SetParam]
  rw [mapGet_mapSet_ne _ _ _ _ hk]
  by_cases h : c.database = ""
  · simp [h, Request.SetUri, Request.SetMethod, Request.SetHeader, mapGet]
  · simp [h, Request.SetUri, Request.SetMethod, Request.SetHeader, Request.SetParam, mapGet,
      mapSet]

theorem post_sent_mem {T : Schema} {D R : Type} (env : Env T) (c : Client)
    (uri method : String) (data : D) (marshal : D → Except Error String)
    (result : Option R) (decode : Decoder R) (params : List String) (req : Request)
    (hreq : req ∈ sent (post env c uri method data marshal result decode params).calls) :
    ∃ buf, marshal data = .ok buf
      ∧ req = (postRequest env c uri method params).SetBody (bodyOf env buf) := by
  cases h : marshal data with
  | error e =>
    rw [post_marshal_error env c uri method data marshal result decode params e h] at hreq
    simp [sent] at hreq
  | ok buf =>
    refine ⟨buf, rfl, ?_⟩
    cases hs : env.SendRequest ((postRequest env c uri method params).SetBody (bodyOf env buf)) with
    | error e =>
      rw [post_send_error env c uri method data marshal result decode params buf e h hs] at hreq
      simpa [sent] using hreq
    | ok res =>
      cases hf : res.IsFail with
      | true =>
        rw [post_service_fail env c uri method data marshal result decode params buf res h hs hf]
          at hreq
        simpa [sent] using hreq
      | false =>
        cases result with
        | none =>
          rw [post_success_none env c uri method data marshal decode params buf res h hs hf]
            at hreq
          simpa [sent] using hreq
        | some r =>
          rw [post_success_some env c uri method data marshal r decode params buf res h hs hf]
            at hreq
          simpa [sent] using hreq

theorem splitChars_append_sep (sep : Char) (a b : List Char) (ha : sep ∉ a) :
    splitChars sep (a ++ sep :: b) = a :: splitChars sep b := by
  induction a with
  | nil => simp [splitChars]
  | cons ch rest ih =>
    have hch : ch ≠ sep := fun h => ha (by simp [h])
    have hrest : sep ∉ rest := fun h => ha (by simp [h])
    simp [splitChars, hch, ih hrest]

theorem splitChars_no_sep (sep : Char) (a : List Char) (ha : sep ∉ a) :
    splitChars sep a = [a] := by
  induction a with
  | nil => simp [splitChars]
  | cons ch rest ih =>
    have hch : ch ≠ sep := fun h => ha (by simp [h])
    have hrest : sep ∉ rest := fun h => ha (by simp [h])
    simp [splitChars, hch, ih hrest]

theorem upperhex_mem (n : Nat) : upperhex n ∈ "0123456789ABCDEF".data := by
  unfold upperhex
  by_cases h : n < 16
  · interval_cases n <;> decide
  · rw [List.getD_eq_default]
    · decide
    · simp only [not_lt] at h
      exact h

theorem escapeByte_query_safe (c : Nat) (ch : Char)
    (h : ch ∈ escapeByte .encodeQueryComponent c) : ch ≠ '&' ∧ ch ≠ '=' := by
  unfold escapeByte at h
  split at h
  · simp at h
    subst h
    decide
  · split at h
    · simp only [List.mem_cons, List.mem_singleton, List.not_mem_nil, or_false] at h
      rcases h with h | h | h
      · subst h; decide
      · have := upperhex_mem (c / 16)
        rw [← h] at this
        constructor <;> (rintro rfl; revert this; decide)
      · have := upperhex_mem (c % 16)
        rw [← h] at this
        constructor <;> (rintro rfl; revert this; decide)
    · rename_i h1 h2
      simp only [List.mem_singleton] at h
      subst h
      have hc : c ≤ 126 ∧ c ≠ 38 ∧ c ≠ 61 := by
        simp only [shouldEscape] at h2
        split at h2
        · omega
        · split at h2
          · omega
          · split at h2 <;> simp at h2
      obtain ⟨hle, h38, h61⟩ := hc
      interval_cases c <;> first | omega | decide

theorem QueryEscape_safe (s : String) :
    '&' ∉ (QueryEscape s).data ∧ '=' ∉ (QueryEscape s).data := by
  simp only [QueryEscape, escape, List.mem_flatMap, not_exists, not_and]
  constructor
  · intro c _ h
    exact (escapeByte_query_safe c _ h).1 rfl
  · intro c _ h
    exact (escapeByte_query_safe c _ h).2 rfl


theorem queryKeys_authorization_query (a j : String) :
    queryKeys ("authorization=" ++ QueryEscape a ++ "&query=" ++ QueryEscape j)
      = ["authorization", "query"] := by
  obtain ⟨ha1, -⟩ := QueryEscape_safe a
  obtain ⟨hj1, -⟩ := QueryEscape_safe j
  have hd : ("authorization=" ++ QueryEscape a ++ "&query=" ++ QueryEscape j).data
      = ("authorization=".data ++ (QueryEscape a).data)
        ++ '&' :: ("query=".data ++ (QueryEscape j).data) := by
    simp [String.data_append]
  have h1 : '&' ∉ "authorization=".data ++ (QueryEscape a).data := by
    simp only [List.mem_append, not_or]
    exact ⟨by decide, ha1⟩
  have h2 : '&' ∉ "query=".data ++ (QueryEscape j).data := by
    simp only [List.mem_append, not_or]
    exact ⟨by decide, hj1⟩
  unfold queryKeys
  rw [hd, splitChars_append_sep _ _ _ h1, splitChars_no_sep _ _ h2]
  have e1 : "authorization=".data
      = ['a', 'u', 't', 'h', 'o', 'r', 'i', 'z', 'a', 't', 'i', 'o', 'n', '='] := rfl
  have e2 : "query=".data = ['q', 'u', 'e', 'r', 'y', '='] := rfl
  rw [e1, e2]
  simp [List.takeWhile]

/-! ## The claims -/

/-- C1: every request that WriteDatapoint, ListMetric, ListFieldByMetric,
    ListTagByMetric, ListDatapointByQuery and ListRowBySql hand to the transport, for
    every argument, carries the query parameter `database` with exactly the configured
    value when that value is non-empty, and has no `database` parameter when it is
    empty; the three GET listings and the row query hand over exactly one request. -/
theorem database_param_on_every_request {T : Schema} (env : Env T) (c : Client) :
    (∀ data, ∀ req ∈ sent (WriteDatapoint env c data).calls,
        carriesDatabase c.database req)
    ∧ (∃ req, sent (ListMetric env c).calls = [req] ∧ carriesDatabase c.database req)
    ∧ (∀ metric, ∃ req, sent (ListFieldByMetric env c metric).calls = [req]
        ∧ carriesDatabase c.database req)
    ∧ (∀ metric, ∃ req, sent (ListTagByMetric env c metric).calls = [req]
        ∧ carriesDatabase c.database req)
    ∧ (∀ query flag, ∀ req ∈ sent (ListDatapointByQuery env c query flag).calls,
        carriesDatabase c.database req)
    ∧ (∀ statement, ∃ req, sent (ListRowBySql env c statement).calls = [req]
        ∧ carriesDatabase c.database req) := by
  refine ⟨?_, ?_, ?_, ?_, ?_, ?_⟩
  · intro data req hreq
    obtain ⟨buf, -, rfl⟩ := post_sent_mem env c _ _ _ _ _ _ _ req hreq
    exact postRequest_database_nil env c _ _
  · exact ⟨getRequest c URI_METRIC [],
      get_sent env c URI_METRIC ({} : ListMetricsResult) env.decodeMetrics [],
      getRequest_database_nil c _⟩
  · intro metric
    exact ⟨getRequest c (Sprintf URI_FIELD [metric]) [],
      get_sent env c (Sprintf URI_FIELD [metric]) ({} : ListFieldResult T) env.decodeFields [],
      getRequest_database_nil c _⟩
  · intro metric
    exact ⟨getRequest c (Sprintf URI_TAG [metric]) [],
      get_sent env c (Sprintf URI_TAG [metric]) ({} : ListTagsResult T) env.decodeTags [],
      getRequest_database_nil c _⟩
  · intro query flag req hreq
    obtain ⟨buf, -, rfl⟩ := post_sent_mem env c _ _ _ _ _ _ _ req hreq
    exact postRequest_database_pair env c _ _ _ _ (by decide)
  · intro statement
    exact ⟨getRequest c URI_ROW_SQL ["sql", statement],
      get_sent env c URI_ROW_SQL T.zeroRow env.decodeRow ["sql", statement],
      getRequest_database_pair c URI_ROW_SQL "sql" statement (by decide)⟩

/-- C1 at a concrete client: with database `db1` the one request of the row query
    and the one request of a write carry `database=db1`; with no database configured
    the request of the metric listing has no `database` parameter. -/
theorem database_param_on_every_request_witness :
    (∃ req, sent (ListRowBySql refEnv (refClient "db1") "select 1").calls = [req]
        ∧ mapGet req.params "database" = some "db1")
    ∧ ((sent (WriteDatapoint refEnv (refClient "db1") ["\x7b\x7d"]).calls).length = 1
        ∧ ∀ req ∈ sent (WriteDatapoint refEnv (refClient "db1") ["\x7b\x7d"]).calls,
            mapGet req.params "database" = some "db1")
    ∧ (∃ req, sent (ListMetric refEnv (refClient "")).calls = [req]
        ∧ mapGet req.params "database" = none) :=
  ⟨(database_param_on_every_request refEnv (refClient "db1")).2.2.2.2.2 "select 1",
   ⟨by decide, (database_param_on_every_request refEnv (refClient "db1")).1 ["\x7b\x7d"]⟩,
   (database_param_on_every_request refEnv (refClient "")).2.1⟩

/-- C2: for every statement, ListRowBySql sends one request and, by the outcome of
    the transport: a send error gives a nil result with that error; a service
    failure gives a nil result with the service error; a body that fails to parse
    gives a nil result with the parse error; a body that parses gives the object
    the body was parsed into with a nil error.  Hence the result is nil whenever the
    error is non-nil, non-nil whenever the error is nil, and never non-nil together
    with a non-nil error. -/
theorem listRowBySql_result_nil_iff_error {T : Schema} (env : Env T) (c : Client)
    (statement : String) :
    (∃ req, sent (ListRowBySql env c statement).calls = [req]
      ∧ (∀ e, env.SendRequest req = .error e →
          (ListRowBySql env c statement).val = none
            ∧ (ListRowBySql env c statement).err = some e)
      ∧ (∀ res, env.SendRequest req = .ok res → res.IsFail = true →
          (ListRowBySql env c statement).val = none
            ∧ (ListRowBySql env c statement).err = some res.ServiceError)
      ∧ (∀ res e, env.SendRequest req = .ok res → res.IsFail = false →
          (env.decodeRow res.body T.zeroRow).2 = some e →
          (ListRowBySql env c statement).val = none
            ∧ (ListRowBySql env c statement).err = some e)
      ∧ (∀ res, env.SendRequest req = .ok res → res.IsFail = false →
          (env.decodeRow res.body T.zeroRow).2 = none →
          (ListRowBySql env c statement).val = some (env.decodeRow res.body T.zeroRow).1
            ∧ (ListRowBySql env c statement).err = none))
    ∧ ((ListRowBySql env c statement).err ≠ none → (ListRowBySql env c statement).val = none)
    ∧ ((ListRowBySql env c statement).err = none → (ListRowBySql env c statement).val ≠ none)
    ∧ ¬ ((ListRowBySql env c statement).val ≠ none
          ∧ (ListRowBySql env c statement).err ≠ none) := by
  refine ⟨⟨getRequest c URI_ROW_SQL ["sql", statement],
    get_sent env c URI_ROW_SQL T.zeroRow env.decodeRow ["sql", statement], ?_, ?_, ?_, ?_⟩,
    ?_, ?_, ?_⟩
  · intro e h
    simp [ListRowBySql, get_send_error env c _ T.zeroRow env.decodeRow _ e h]
  · intro res h hf
    simp [ListRowBySql, get_service_fail env c _ T.zeroRow env.decodeRow _ res h hf]
  · intro res e h hf hd
    simp [ListRowBySql, get_success env c _ T.zeroRow env.decodeRow _ res h hf, hd]
  · intro res h hf hd
    simp [ListRowBySql, get_success env c _ T.zeroRow env.decodeRow _ res h hf, hd]
  · intro h
    simp only [ListRowBySql] at h ⊢
    simp [h]
  · intro h
    simp only [ListRowBySql] at h ⊢
    simp [h]
  · rintro ⟨hv, he⟩
    simp only [ListRowBySql] at hv he
    simp [he] at hv

/-- C2 in the reference environment, one statement per outcome of the transport:
    a lost connection, a refusal by the service and an unparsable body give a nil
    result with an error; a parsed body gives the parsed rows and no error. -/
theorem listRowBySql_result_nil_iff_error_witness :
    ((ListRowBySql refEnv (refClient "db1") "ping").val = none
      ∧ (ListRowBySql refEnv (refClient "db1") "ping").err = some ⟨"connection refused"⟩)
    ∧ ((ListRowBySql refEnv (refClient "db1") "drop").val = none
      ∧ (ListRowBySql refEnv (refClient "db1") "drop").err = some ⟨"[Code: AccessDenied]"⟩)
    ∧ ((ListRowBySql refEnv (refClient "db1") "select 2").val = none
      ∧ (ListRowBySql refEnv (refClient "db1") "select 2").err = some ⟨"invalid character"⟩)
    ∧ ((ListRowBySql refEnv (refClient "db1") "select 1").val = some [["1"]]
      ∧ (ListRowBySql refEnv (refClient "db1") "select 1").err = none) := by
  have h1 := (listRowBySql_result_nil_iff_error refEnv (refClient "db1") "ping").2.1
  have h2 := (listRowBySql_result_nil_iff_error refEnv (refClient "db1") "drop").2.1
  have h3 := (listRowBySql_result_nil_iff_error refEnv (refClient "db1") "select 2").2.1
  have h4 := (listRowBySql_result_nil_iff_error refEnv (refClient "db1") "select 1").2.2.1
  refine ⟨⟨h1 (by decide), by decide⟩, ⟨h2 (by decide), by decide⟩,
    ⟨h3 (by decide), by decide⟩, ⟨?_, by decide⟩⟩
  have h5 := h4 (by decide)
  revert h5
  decide

/-- C3: for every metric name `m`, ListTagByMetric sends exactly one request, a GET
    whose URI is `/v1/metric/` ++ m ++ `/tag`; when the response is a success whose
    body parses, the first return value is the `Tags` field of the result object
    after the body has been parsed into it and the error is nil.  The same holds
    for ListMetric (URI `/v1/metric`, field `Metrics`) and ListFieldByMetric (URI
    `/v1/metric/` ++ m ++ `/field`, field `Fields`). -/
theorem list_operations_get_and_return_parsed_field {T : Schema} (env : Env T) (c : Client)
    (m : String) :
    (∃ req, sent (ListTagByMetric env c m).calls = [req]
      ∧ req.method = "GET" ∧ req.uri = "/v1/metric/" ++ m ++ "/tag"
      ∧ ∀ res, env.SendRequest req = .ok res → res.IsFail = false →
          (env.decodeTags res.body {}).2 = none →
          (ListTagByMetric env c m).val = (env.decodeTags res.body {}).1.Tags
            ∧ (ListTagByMetric env c m).err = none)
    ∧ (∃ req, sent (ListMetric env c).calls = [req]
      ∧ req.method = "GET" ∧ req.uri = "/v1/metric"
      ∧ ∀ res, env.SendRequest req = .ok res → res.IsFail = false →
          (env.decodeMetrics res.body {}).2 = none →
          (ListMetric env c).val = (env.decodeMetrics res.body {}).1.Metrics
            ∧ (ListMetric env c).err = none)
    ∧ (∃ req, sent (ListFieldByMetric env c m).calls = [req]
      ∧ req.method = "GET" ∧ req.uri = "/v1/metric/" ++ m ++ "/field"
      ∧ ∀ res, env.SendRequest req = .ok res → res.IsFail = false →
          (env.decodeFields res.body {}).2 = none →
          (ListFieldByMetric env c m).val = (env.decodeFields res.body {}).1.Fields
            ∧ (ListFieldByMetric env c m).err = none) := by
  refine ⟨⟨getRequest c (Sprintf URI_TAG [m]) [],
      get_sent env c (Sprintf URI_TAG [m]) ({} : ListTagsResult T) env.decodeTags [],
      (getRequest_method c _ _).1, ?_, ?_⟩,
    ⟨getRequest c URI_METRIC [],
      get_sent env c URI_METRIC ({} : ListMetricsResult) env.decodeMetrics [],
      (getRequest_method c _ _).1, (getRequest_method c _ _).2, ?_⟩,
    ⟨getRequest c (Sprintf URI_FIELD [m]) [],
      get_sent env c (Sprintf URI_FIELD [m]) ({} : ListFieldResult T) env.decodeFields [],
      (getRequest_method c _ _).1, ?_, ?_⟩⟩
  · rw [(getRequest_method c _ _).2, Sprintf_URI_TAG]
  · intro res h hf hd
    simp [ListTagByMetric, get_success env c _ ({} : ListTagsResult T) env.decodeTags _ res h hf,
      hd]
  · intro res h hf hd
    simp [ListMetric,
      get_success env c _ ({} : ListMetricsResult) env.decodeMetrics _ res h hf, hd]
  · rw [(getRequest_method c _ _).2, Sprintf_URI_FIELD]
  · intro res h hf hd
    simp [ListFieldByMetric,
      get_success env c _ ({} : ListFieldResult T) env.decodeFields _ res h hf, hd]

/-- C3 on the example of the specification: `ListTagByMetric("cpu")` issues a GET
    to `/v1/metric/cpu/tag`, and for the body with tags `host` mapped to `a`, `b` it
    returns that mapping with no error. -/
theorem list_operations_get_and_return_parsed_field_witness :
    (∃ req, sent (ListTagByMetric refEnv (refClient "db1") "cpu").calls = [req]
      ∧ req.method = "GET" ∧ req.uri = "/v1/metric/cpu/tag")
    ∧ (ListTagByMetric refEnv (refClient "db1") "cpu").val = [("host", ["a", "b"])]
    ∧ (ListTagByMetric refEnv (refClient "db1") "cpu").err = none := by
  obtain ⟨req, hs, hm, hu, -⟩ :=
    (list_operations_get_and_return_parsed_field refEnv (refClient "db1") "cpu").1
  refine ⟨⟨req, hs, hm, by rw [hu]; decide⟩, by decide, by decide⟩

/-- C8: for every datapoint list, WriteDatapoint behaves as follows.  If the JSON
    serialization succeeds, its only call outside the package is one send of a POST
    request to `/v1/datapoint` (so no body is parsed), and it returns the transport
    error if the send fails, the response's service error if the response signals
    failure, and a nil error otherwise.  If the serialization fails, it returns the
    serialization error and makes no call at all. -/
theorem writeDatapoint_errors {T : Schema} (env : Env T) (c : Client)
    (data : List T.Datapoint) :
    (∀ buf, env.marshalWrite { DataPoints := data } = .ok buf →
      ∃ req, (WriteDatapoint env c data).calls = [.send req]
        ∧ req.method = "POST" ∧ req.uri = "/v1/datapoint"
        ∧ parsed (WriteDatapoint env c data).calls = []
        ∧ (∀ e, env.SendRequest req = .error e → (WriteDatapoint env c data).err = some e)
        ∧ (∀ res, env.SendRequest req = .ok res → res.IsFail = true →
            (WriteDatapoint env c data).err = some res.ServiceError)
        ∧ (∀ res, env.SendRequest req = .ok res → res.IsFail = false →
            (WriteDatapoint env c data).err = none))
    ∧ (∀ e, env.marshalWrite { DataPoints := data } = .error e →
        (WriteDatapoint env c data).err = some e ∧ (WriteDatapoint env c data).calls = []) := by
  constructor
  · intro buf hbuf
    have hcalls : (WriteDatapoint env c data).calls
        = [.send ((postRequest env c URI_DATAPOINT POST []).SetBody (bodyOf env buf))] := by
      cases hs : env.SendRequest
          ((postRequest env c URI_DATAPOINT POST []).SetBody (bodyOf env buf)) with
      | error e =>
        simp [WriteDatapoint, post_send_error env c _ _ _ env.marshalWrite (none : Option Unit)
          noDecoder [] buf e hbuf hs]
      | ok res =>
        cases hf : res.IsFail with
        | true =>
          simp [WriteDatapoint, post_service_fail env c _ _ _ env.marshalWrite
            (none : Option Unit) noDecoder [] buf res hbuf hs hf]
        | false =>
          simp [WriteDatapoint, post_success_none env c _ _ _ env.marshalWrite
            noDecoder [] buf res hbuf hs hf]
    refine ⟨_, hcalls, ?_, ?_, ?_, ?_, ?_, ?_⟩
    · exact (postRequest_fields env c _ _ _).1
    · exact (postRequest_fields env c _ _ _).2
    · rw [hcalls]; rfl
    · intro e hs
      simp [WriteDatapoint, post_send_error env c _ _ _ env.marshalWrite (none : Option Unit)
        noDecoder [] buf e hbuf hs]
    · intro res hs hf
      simp [WriteDatapoint, post_service_fail env c _ _ _ env.marshalWrite
        (none : Option Unit) noDecoder [] buf res hbuf hs hf]
    · intro res hs hf
      simp [WriteDatapoint, post_success_none env c _ _ _ env.marshalWrite
        noDecoder [] buf res hbuf hs hf]
  · intro e he
    simp [WriteDatapoint, post_marshal_error env c _ _ _ env.marshalWrite (none : Option Unit)
      noDecoder [] e he]

/-- C8 at a concrete input: writing one datapoint makes exactly one call, the send
    of a POST to `/v1/datapoint`; nothing is parsed and the error is nil. -/
theorem writeDatapoint_errors_witness :
    (∃ req, (WriteDatapoint refEnv (refClient "db1") ["\x7b\x7d"]).calls = [.send req]
      ∧ req.method = "POST" ∧ req.uri = "/v1/datapoint"
      ∧ parsed (WriteDatapoint refEnv (refClient "db1") ["\x7b\x7d"]).calls = [])
    ∧ (WriteDatapoint refEnv (refClient "db1") ["\x7b\x7d"]).err = none := by
  obtain ⟨req, hc, hm, hu, hp, -, -, -⟩ :=
    (writeDatapoint_errors refEnv (refClient "db1") ["\x7b\x7d"]).1
      "\x7b\"datapoints\":[\x7b\x7d]\x7d" rfl
  exact ⟨⟨req, hc, hm, hu, hp⟩, by decide⟩

theorem generatePresignedUrl_ok {T : Schema} (env : Env T) (c : Client) (q : T.Queries)
    (expireSeconds : Int) (endpoint : List String) (j : String)
    (hj : env.marshalList { Queries := q } = .ok j) :
    GeneratePresignedUrl env c q expireSeconds endpoint
      = { val := endpoint.head?.getD c.BceClient.Config.Endpoint ++ "/v1/datapoint"
            ++ "?authorization="
            ++ QueryEscape (env.authString (presignRequest c j)
                c.BceClient.Config.Credentials (presignOptions c expireSeconds))
            ++ "&query=" ++ QueryEscape j
          err := none
          calls := [.sign (presignRequest c j) c.BceClient.Config.Credentials
            (presignOptions c expireSeconds)] } := by
  simp only [GeneratePresignedUrl, hj]
  cases endpoint with
  | nil =>
    simp [Sprintf_url, Encode_query_authorization, URI_DATAPOINT, AUTHORIZATION, Sign,
      presignRequest, presignOptions, Request.Header,
      Request.Param, Request.SetParam, Request.SetHeader, Request.SetUri, Request.SetMethod,
      mapGet, mapSet, String.append_assoc]
    apply String.ext
    simp
  | cons e rest =>
    simp [Sprintf_url, Encode_query_authorization, URI_DATAPOINT, AUTHORIZATION, Sign,
      presignRequest, presignOptions, Request.Header,
      Request.Param, Request.SetParam, Request.SetHeader, Request.SetUri, Request.SetMethod,
      mapGet, mapSet, String.append_assoc]
    apply String.ext
    simp

/-- C4, as the code has it: for every query set whose JSON serialization `j`
    succeeds, every `expireSeconds` and every optional override endpoint,
    GeneratePresignedUrl signs one request and returns
    E ++ `/v1/datapoint` ++ `?authorization=` ++ urlencode(S) ++ `&query=` ++ urlencode(j):
    E is the first override endpoint if one is supplied and the configured endpoint
    otherwise, S is the `Authorization` header of the signed request; the parameters
    come in the sorted order of their keys, `authorization` before `query`. -/
theorem generatePresignedUrl_value {T : Schema} (env : Env T) (c : Client) (q : T.Queries)
    (expireSeconds : Int) (endpoint : List String) (j : String)
    (hj : env.marshalList { Queries := q } = .ok j) :
    ∃ req cred opt,
      signed (GeneratePresignedUrl env c q expireSeconds endpoint).calls = [(req, cred, opt)]
      ∧ (GeneratePresignedUrl env c q expireSeconds endpoint).val
          = endpoint.head?.getD c.BceClient.Config.Endpoint ++ "/v1/datapoint"
            ++ "?authorization=" ++ QueryEscape ((Sign env req cred opt).Header "Authorization")
            ++ "&query=" ++ QueryEscape j := by
  refine ⟨presignRequest c j, c.BceClient.Config.Credentials, presignOptions c expireSeconds,
    ?_, ?_⟩
  · rw [generatePresignedUrl_ok env c q expireSeconds endpoint j hj]
    rfl
  · rw [generatePresignedUrl_ok env c q expireSeconds endpoint j hj]
    have : (Sign env (presignRequest c j) c.BceClient.Config.Credentials
        (presignOptions c expireSeconds)).Header "Authorization"
        = env.authString (presignRequest c j) c.BceClient.Config.Credentials
          (presignOptions c expireSeconds) := by
      simp [Sign, Request.Header, Request.SetHeader, AUTHORIZATION, mapGet_mapSet_self]
    rw [this]

/-- C4 at a concrete input: for the empty query set, 3600 seconds and no override
    the configured endpoint is used and the URL starts with `authorization`. -/
theorem generatePresignedUrl_value_witness :
    ∃ req cred opt,
      signed (GeneratePresignedUrl refEnv (refClient "db1") [] 3600 []).calls
        = [(req, cred, opt)]
      ∧ (GeneratePresignedUrl refEnv (refClient "db1") [] 3600 []).val
          = "http://tsdb.example.com" ++ "/v1/datapoint"
            ++ "?authorization="
            ++ QueryEscape ((Sign refEnv req cred opt).Header "Authorization")
            ++ "&query=" ++ QueryEscape "\x7b\"queries\":[]\x7d" :=
  generatePresignedUrl_value refEnv (refClient "db1") [] 3600 [] "\x7b\"queries\":[]\x7d" rfl

/-- C4 as stated fails: for the empty query set, whose serialization is
    `\x7b"queries":[]\x7d`, the returned URL is not the one with `query` first and
    `authorization` second; it has `authorization` first. -/
theorem generatePresignedUrl_order_counterexample :
    refEnv.marshalList { Queries := [] } = .ok "\x7b\"queries\":[]\x7d"
    ∧ (GeneratePresignedUrl refEnv (refClient "db1") [] 3600 []).val
        ≠ "http://tsdb.example.com" ++ "/v1/datapoint"
          ++ "?query=" ++ QueryEscape "\x7b\"queries\":[]\x7d"
          ++ "&authorization="
          ++ QueryEscape ((Sign refEnv (presignRequest (refClient "db1") "\x7b\"queries\":[]\x7d")
              (refClient "db1").BceClient.Config.Credentials
              (presignOptions (refClient "db1") 3600)).Header "Authorization")
    ∧ (GeneratePresignedUrl refEnv (refClient "db1") [] 3600 []).val
        = "http://tsdb.example.com/v1/datapoint?authorization=bce-auth-v1%2Fak%2F2024-01-01T00%3A00%3A00Z%2F3600%2Fhost%2F14&query=%7B%22queries%22%3A%5B%5D%7D" := by
  refine ⟨rfl, by decide, by decide⟩

/-- C5: for every query set whose JSON serialization `j` succeeds and every integer
    `expireSeconds`, the only call GeneratePresignedUrl makes outside the package is
    one invocation of the signer, on a request with method GET, URI `/v1/datapoint`,
    header `Host` equal to the client's host and parameter `query` equal to `j`, with
    the client's credentials and with sign options whose `ExpireSeconds` is the
    caller's value and whose `HeadersToSign` are the client's configured ones; the
    trace is the same for every choice of override endpoint, and the error is nil. -/
theorem generatePresignedUrl_signs_once {T : Schema} (env : Env T) (c : Client)
    (q : T.Queries) (expireSeconds : Int) (endpoint : List String) (j : String)
    (hj : env.marshalList { Queries := q } = .ok j) :
    (∃ req opt,
      (GeneratePresignedUrl env c q expireSeconds endpoint).calls
        = [.sign req c.BceClient.Config.Credentials opt]
      ∧ req.method = "GET" ∧ req.uri = "/v1/datapoint"
      ∧ mapGet req.headers "Host" = some c.host
      ∧ mapGet req.params "query" = some j
      ∧ opt.ExpireSeconds = expireSeconds
      ∧ opt.HeadersToSign = c.BceClient.Config.SignOption.HeadersToSign)
    ∧ (∀ other : List String,
        (GeneratePresignedUrl env c q expireSeconds other).calls
          = (GeneratePresignedUrl env c q expireSeconds endpoint).calls)
    ∧ (GeneratePresignedUrl env c q expireSeconds endpoint).err = none := by
  refine ⟨⟨presignRequest c j, presignOptions c expireSeconds, ?_, rfl, rfl, ?_, ?_, rfl, rfl⟩,
    ?_, ?_⟩
  · rw [generatePresignedUrl_ok env c q expireSeconds endpoint j hj]
  · simp [presignRequest, Request.SetParam, Request.SetHeader, Request.SetUri,
      Request.SetMethod, mapGet, mapSet]
  · simp [presignRequest, Request.SetParam, Request.SetHeader, Request.SetUri,
      Request.SetMethod, mapGet, mapSet]
  · intro other
    rw [generatePresignedUrl_ok env c q expireSeconds endpoint j hj,
      generatePresignedUrl_ok env c q expireSeconds other j hj]
  · rw [generatePresignedUrl_ok env c q expireSeconds endpoint j hj]

/-- C5 at a concrete input: a negative expiration and an override endpoint. -/
theorem generatePresignedUrl_signs_once_witness :
    (∃ req opt,
      (GeneratePresignedUrl refEnv (refClient "db1") [] (-5) ["https://pub"]).calls
        = [.sign req (refClient "db1").BceClient.Config.Credentials opt]
      ∧ req.method = "GET" ∧ req.uri = "/v1/datapoint"
      ∧ mapGet req.headers "Host" = some "tsdb.example.com"
      ∧ mapGet req.params "query" = some "\x7b\"queries\":[]\x7d"
      ∧ opt.ExpireSeconds = -5
      ∧ opt.HeadersToSign = ["host", "content-length", "content-type", "content-md5"])
    ∧ (∀ other : List String,
        (GeneratePresignedUrl refEnv (refClient "db1") [] (-5) other).calls
          = (GeneratePresignedUrl refEnv (refClient "db1") [] (-5) ["https://pub"]).calls)
    ∧ (GeneratePresignedUrl refEnv (refClient "db1") [] (-5) ["https://pub"]).err = none :=
  generatePresignedUrl_signs_once refEnv (refClient "db1") [] (-5) ["https://pub"]
    "\x7b\"queries\":[]\x7d" rfl

/-- C6, as the code has it: for every query set and optional flag whose arguments
    object serializes to `j`, ListDatapointByQuery sends exactly one request, a PUT
    to `/v1/datapoint`, whose extra query parameter `query` is set to the empty
    string and whose body is `j`, the JSON encoding of the arguments object holding
    the query set and the flag (false when the flag is omitted). -/
theorem listDatapointByQuery_request {T : Schema} (env : Env T) (c : Client) (q : T.Queries)
    (flag : List Bool) (j : String)
    (hj : env.marshalList
      { Queries := q, DisablePresampling := decide (flag.length > 0) && flag.getD 0 false }
        = .ok j) :
    ∃ req, sent (ListDatapointByQuery env c q flag).calls = [req]
      ∧ req.method = "PUT" ∧ req.uri = "/v1/datapoint"
      ∧ mapGet req.params "query" = some ""
      ∧ req.body.map Body.stream = some j := by
  have hcalls : sent (ListDatapointByQuery env c q flag).calls
      = [(postRequest env c URI_DATAPOINT PUT ["query", ""]).SetBody (bodyOf env j)] := by
    cases hs : env.SendRequest
        ((postRequest env c URI_DATAPOINT PUT ["query", ""]).SetBody (bodyOf env j)) with
    | error e =>
      simp only [ListDatapointByQuery]
      rw [post_send_error env c _ _ _ env.marshalList
        (some ({} : ListDatapointResult T)) env.decodeDatapoints _ j e hj hs]
      rfl
    | ok res =>
      cases hf : res.IsFail with
      | true =>
        simp only [ListDatapointByQuery]
        rw [post_service_fail env c _ _ _ env.marshalList
          (some ({} : ListDatapointResult T)) env.decodeDatapoints _ j res hj hs hf]
        rfl
      | false =>
        simp only [ListDatapointByQuery]
        rw [post_success_some env c _ _ _ env.marshalList
          ({} : ListDatapointResult T) env.decodeDatapoints _ j res hj hs hf]
        rfl
  refine ⟨_, hcalls, (postRequest_fields env c _ _ _).1, (postRequest_fields env c _ _ _).2,
    ?_, ?_⟩
  · simp only [Request.SetBody, postRequest]
    rw [setParams_pair]
    simp only [Request.SetParam]
    exact mapGet_mapSet_self _ _ _
  · simp [Request.SetBody, bodyOf]

/-- C6 at a concrete input: the empty query set with the flag set. -/
theorem listDatapointByQuery_request_witness :
    ∃ req, sent (ListDatapointByQuery refEnv (refClient "db1") [] [true]).calls = [req]
      ∧ req.method = "PUT" ∧ req.uri = "/v1/datapoint"
      ∧ mapGet req.params "query" = some ""
      ∧ req.body.map Body.stream
          = some "\x7b\"queries\":[],\"disablePresampling\":true\x7d" :=
  listDatapointByQuery_request refEnv (refClient "db1") [] [true]
    "\x7b\"queries\":[],\"disablePresampling\":true\x7d" rfl

/-- C6 as stated fails: for the empty query set, whose JSON encoding is
    `\x7b"queries":[]\x7d`, the one request sent has the parameter `query` set to
    the empty string, not to that encoding. -/
theorem listDatapointByQuery_query_param_counterexample :
    refEnv.marshalList { Queries := [] } = .ok "\x7b\"queries\":[]\x7d"
    ∧ ∃ req, sent (ListDatapointByQuery refEnv (refClient "db1") [] []).calls = [req]
        ∧ req.method = "PUT" ∧ req.uri = "/v1/datapoint"
        ∧ mapGet req.params "query" = some ""
        ∧ mapGet req.params "query" ≠ some "\x7b\"queries\":[]\x7d" := by
  refine ⟨rfl, _, rfl, ?_, ?_, ?_, ?_⟩ <;> decide

/-- C7, as the code has it: for every configuration NewClientWithConfig returns
    exactly one of a client or an error.  If the credential constructor rejects the
    keys it returns no client and the credential error, whatever the endpoint; if it
    accepts them and the URL parser rejects the endpoint it returns no client and the
    URL-parse error; whenever a client is returned its host is the host component of
    the parsed endpoint URL and its database is the configured database.  NewClient
    and NewClientWithDB equal NewClientWithConfig on the config with the same
    endpoint and keys, the empty or given database and the empty proxy. -/
theorem newClientWithConfig_client_or_error {T : Schema} (env : Env T) (cfg : Config) :
    (((NewClientWithConfig env cfg).1 ≠ none ∧ (NewClientWithConfig env cfg).2 = none)
      ∨ ((NewClientWithConfig env cfg).1 = none ∧ (NewClientWithConfig env cfg).2 ≠ none))
    ∧ (∀ e, env.NewBceCredentials cfg.AK cfg.SK = .error e →
        NewClientWithConfig env cfg = (none, some e))
    ∧ (∀ cred e, env.NewBceCredentials cfg.AK cfg.SK = .ok cred →
        env.urlParse cfg.Endpoint = .error e →
        NewClientWithConfig env cfg = (none, some e))
    ∧ (∀ cl, (NewClientWithConfig env cfg).1 = some cl →
        ∃ u, env.urlParse cfg.Endpoint = .ok u ∧ cl.host = u.Host
          ∧ cl.database = cfg.Database)
    ∧ (∀ ak sk endpoint, NewClient env ak sk endpoint
        = NewClientWithConfig env
            { Endpoint := endpoint, AK := ak, SK := sk, Database := "", ProxyUrl := "" })
    ∧ (∀ ak sk endpoint database, NewClientWithDB env ak sk endpoint database
        = NewClientWithConfig env
            { Endpoint := endpoint, AK := ak, SK := sk, Database := database
              ProxyUrl := "" }) := by
  refine ⟨?_, ?_, ?_, ?_, fun _ _ _ => rfl, fun _ _ _ _ => rfl⟩
  · simp only [NewClientWithConfig]
    cases env.NewBceCredentials cfg.AK cfg.SK with
    | error e => simp
    | ok cred =>
      cases env.urlParse cfg.Endpoint with
      | error e => simp
      | ok u => simp
  · intro e h
    simp [NewClientWithConfig, h]
  · intro cred e h hu
    simp [NewClientWithConfig, h, hu]
  · intro cl hcl
    simp only [NewClientWithConfig] at hcl
    cases h : env.NewBceCredentials cfg.AK cfg.SK with
    | error e => simp [h] at hcl
    | ok cred =>
      cases hu : env.urlParse cfg.Endpoint with
      | error e => simp [h, hu] at hcl
      | ok u =>
        simp only [h, hu, Option.some.injEq] at hcl
        subst hcl
        exact ⟨u, rfl, rfl, rfl⟩

/-- C7 at concrete inputs: a well-formed endpoint with keys gives the client with
    the URL host and the database and no error; a malformed endpoint with keys gives
    no client and the URL-parse error. -/
theorem newClientWithConfig_client_or_error_witness :
    NewClientWithDB refEnv "ak" "sk" "http://tsdb.example.com" "db1"
      = (some (refClient "db1"), none)
    ∧ (∃ u, refEnv.urlParse "http://tsdb.example.com" = .ok u
        ∧ (refClient "db1").host = u.Host ∧ (refClient "db1").database = "db1")
    ∧ NewClientWithConfig refEnv { Endpoint := ":", AK := "ak", SK := "sk" }
      = (none, some ⟨"parse \":\": missing protocol scheme"⟩) :=
  ⟨by decide,
   (newClientWithConfig_client_or_error refEnv
      { Endpoint := "http://tsdb.example.com", AK := "ak", SK := "sk", Database := "db1" }).2.2.2.1
      (refClient "db1") (by decide),
   (newClientWithConfig_client_or_error refEnv { Endpoint := ":", AK := "ak", SK := "sk" }).2.2.1
      { AccessKeyId := "ak", SecretAccessKey := "sk" } _ rfl rfl⟩

/-- C7 as stated fails: for the malformed endpoint `:` together with empty keys,
    the URL parser rejects the endpoint, yet the error returned is the credential
    error, not the URL-parse error. -/
theorem newClientWithConfig_malformed_endpoint_counterexample :
    refEnv.urlParse ":" = .error ⟨"parse \":\": missing protocol scheme"⟩
    ∧ NewClient refEnv "" "" ":" = (none, some ⟨"accessKeyId should not be empty"⟩)
    ∧ NewClient refEnv "" "" ":" ≠ (none, some ⟨"parse \":\": missing protocol scheme"⟩) := by
  refine ⟨rfl, by decide, by decide⟩

/-- C9, as the code has it: for every metric name `m` the URI that
    ListFieldByMetric and ListTagByMetric set on the request is the template with
    the name inserted as it is, `/v1/metric/` ++ m ++ `/field` (resp. `/tag`), with
    no escaping.  That URI is the template filled with the URL-path-escaped name
    exactly when escaping leaves the name unchanged; a name without a slash (it may
    contain `?`, `%` or a space) contributes exactly one path segment of it. -/
theorem metric_uri_unescaped {T : Schema} (env : Env T) (c : Client) (m : String) :
    (∃ req, sent (ListFieldByMetric env c m).calls = [req]
      ∧ req.uri = "/v1/metric/" ++ m ++ "/field"
      ∧ (req.uri = "/v1/metric/" ++ PathEscape m ++ "/field" ↔ PathEscape m = m)
      ∧ ('/' ∉ m.data → pathSegments req.uri = ["", "v1", "metric", m, "field"]))
    ∧ (∃ req, sent (ListTagByMetric env c m).calls = [req]
      ∧ req.uri = "/v1/metric/" ++ m ++ "/tag"
      ∧ (req.uri = "/v1/metric/" ++ PathEscape m ++ "/tag" ↔ PathEscape m = m)
      ∧ ('/' ∉ m.data → pathSegments req.uri = ["", "v1", "metric", m, "tag"])) := by
  have hseg : ∀ tail : List Char, '/' ∉ tail → '/' ∉ m.data →
      (splitChars '/' ("/v1/metric/".data ++ m.data ++ '/' :: tail)).map String.mk
        = ["", "v1", "metric", m, String.mk tail] := by
    intro tail ht hm
    have e1 : "/v1/metric/".data
        = [] ++ '/' :: (['v', '1'] ++ '/' :: (['m', 'e', 't', 'r', 'i', 'c'] ++ '/' :: [])) := rfl
    rw [e1]
    simp only [List.append_assoc, List.cons_append, List.nil_append]
    rw [show '/' :: 'v' :: '1' :: '/' :: 'm' :: 'e' :: 't' :: 'r' :: 'i' :: 'c' :: '/'
          :: (m.data ++ '/' :: tail)
        = [] ++ '/' :: (['v', '1'] ++ '/' :: (['m', 'e', 't', 'r', 'i', 'c']
          ++ '/' :: (m.data ++ '/' :: tail))) from rfl]
    rw [splitChars_append_sep _ _ _ (by simp), splitChars_append_sep _ _ _ (by decide),
      splitChars_append_sep _ _ _ (by decide), splitChars_append_sep _ _ _ hm,
      splitChars_no_sep _ _ ht]
    rfl
  have hcancel : ∀ tail : String,
      ("/v1/metric/" ++ m ++ tail = "/v1/metric/" ++ PathEscape m ++ tail ↔ PathEscape m = m) := by
    intro tail
    constructor
    · intro h
      have hd := congrArg String.data h
      simp only [String.data_append, List.append_assoc, List.append_cancel_left_eq,
        List.append_cancel_right_eq] at hd
      exact String.ext hd.symm
    · intro h
      rw [h]
  constructor
  · refine ⟨getRequest c (Sprintf URI_FIELD [m]) [],
      get_sent env c (Sprintf URI_FIELD [m]) ({} : ListFieldResult T) env.decodeFields [],
      ?_, ?_, ?_⟩
    · rw [(getRequest_method c _ _).2, Sprintf_URI_FIELD]
    · rw [(getRequest_method c _ _).2, Sprintf_URI_FIELD]
      exact hcancel "/field"
    · intro hm
      rw [(getRequest_method c _ _).2, Sprintf_URI_FIELD]
      unfold pathSegments
      have hd : ("/v1/metric/" ++ m ++ "/field").data
          = "/v1/metric/".data ++ m.data ++ '/' :: ['f', 'i', 'e', 'l', 'd'] := by
        simp [String.data_append]
      rw [hd, hseg _ (by decide) hm]
  · refine ⟨getRequest c (Sprintf URI_TAG [m]) [],
      get_sent env c (Sprintf URI_TAG [m]) ({} : ListTagsResult T) env.decodeTags [],
      ?_, ?_, ?_⟩
    · rw [(getRequest_method c _ _).2, Sprintf_URI_TAG]
    · rw [(getRequest_method c _ _).2, Sprintf_URI_TAG]
      exact hcancel "/tag"
    · intro hm
      rw [(getRequest_method c _ _).2, Sprintf_URI_TAG]
      unfold pathSegments
      have hd : ("/v1/metric/" ++ m ++ "/tag").data
          = "/v1/metric/".data ++ m.data ++ '/' :: ['t', 'a', 'g'] := by
        simp [String.data_append]
      rw [hd, hseg _ (by decide) hm]

/-- C9 at a concrete name: `c p?u%` has a space, a question mark and a percent
    sign but no slash; it is inserted unescaped and is one path segment. -/
theorem metric_uri_unescaped_witness :
    ∃ req, sent (ListFieldByMetric refEnv (refClient "") "c p?u%").calls = [req]
      ∧ req.uri = "/v1/metric/c p?u%/field"
      ∧ pathSegments req.uri = ["", "v1", "metric", "c p?u%", "field"]
      ∧ PathEscape "c p?u%" = "c%20p%3Fu%25" := by
  obtain ⟨req, hs, hu, -, hseg⟩ := (metric_uri_unescaped refEnv (refClient "") "c p?u%").1
  exact ⟨req, hs, by rw [hu]; decide, hseg (by decide), by decide⟩

/-- C9 as stated fails: for the metric name `a/b` the URI set on the request is
    `/v1/metric/a/b/field`, not the template filled with the path-escaped name
    `a%2Fb`, and the name contributes two path segments, not one. -/
theorem metric_uri_escaped_counterexample :
    PathEscape "a/b" = "a%2Fb"
    ∧ ∃ req, sent (ListFieldByMetric refEnv (refClient "") "a/b").calls = [req]
        ∧ req.uri = "/v1/metric/a/b/field"
        ∧ req.uri ≠ "/v1/metric/" ++ PathEscape "a/b" ++ "/field"
        ∧ pathSegments req.uri = ["", "v1", "metric", "a", "b", "field"]
        ∧ pathSegments ("/v1/metric/" ++ PathEscape "a/b" ++ "/field")
            = ["", "v1", "metric", "a%2Fb", "field"] := by
  refine ⟨by decide, _, rfl, ?_, ?_, ?_, ?_⟩ <;> decide

/-- C10: GeneratePresignedUrl does not read the client's database.  Two clients
    that differ only in their database give, for the same query set, expiration
    and override endpoint, the same result: the same URL, the same error and the
    same invocation of the signer.  When the query set serializes, the URL is the
    endpoint, `/v1/datapoint`, a question mark and a query string whose keys are
    exactly `authorization` and `query`, so no `database` parameter, whatever
    database is configured. -/
theorem generatePresignedUrl_ignores_database {T : Schema} (env : Env T) (c : Client)
    (d1 d2 : String) (q : T.Queries) (expireSeconds : Int) (endpoint : List String) :
    GeneratePresignedUrl env { c with database := d1 } q expireSeconds endpoint
      = GeneratePresignedUrl env { c with database := d2 } q expireSeconds endpoint
    ∧ (∀ j, env.marshalList { Queries := q } = .ok j →
        ∃ qs, (GeneratePresignedUrl env { c with database := d1 } q expireSeconds endpoint).val
            = endpoint.head?.getD c.BceClient.Config.Endpoint ++ "/v1/datapoint" ++ "?" ++ qs
          ∧ queryKeys qs = ["authorization", "query"]
          ∧ "database" ∉ queryKeys qs) := by
  refine ⟨rfl, ?_⟩
  intro j hj
  rw [generatePresignedUrl_ok env _ q expireSeconds endpoint j hj]
  refine ⟨"authorization=" ++ QueryEscape (env.authString
      (presignRequest { c with database := d1 } j) c.BceClient.Config.Credentials
      (presignOptions { c with database := d1 } expireSeconds)) ++ "&query=" ++ QueryEscape j,
    ?_, queryKeys_authorization_query _ _, ?_⟩
  · apply String.ext
    simp [String.data_append]
  · rw [queryKeys_authorization_query]
    decide

/-- C10 at concrete clients: with database `db1` and with no database the URL for
    the empty query set is the same string, with the two keys `authorization` and
    `query`. -/
theorem generatePresignedUrl_ignores_database_witness :
    GeneratePresignedUrl refEnv (refClient "db1") [] 3600 []
      = GeneratePresignedUrl refEnv (refClient "") [] 3600 []
    ∧ (GeneratePresignedUrl refEnv (refClient "db1") [] 3600 []).val
      = "http://tsdb.example.com/v1/datapoint?authorization=bce-auth-v1%2Fak%2F2024-01-01T00%3A00%3A00Z%2F3600%2Fhost%2F14&query=%7B%22queries%22%3A%5B%5D%7D"
    ∧ queryKeys "authorization=bce-auth-v1%2Fak%2F2024-01-01T00%3A00%3A00Z%2F3600%2Fhost%2F14&query=%7B%22queries%22%3A%5B%5D%7D"
      = ["authorization", "query"] :=
  ⟨(generatePresignedUrl_ignores_database refEnv (refClient "db1") "db1" "" [] 3600 []).1,
   by decide, by decide⟩

end Tsdb
